import Mathlib

/-!
Verification of the MCP proxy-manager orchestrator (mcp-openwebui-orchestrator).

Shallow embedding of the supervision engine: the port pool
(`src/mcp-proxy-manager/src/port-manager.js`), the proxy manager's start
gate, try-order builder, spawn validation, error recording and health checks
(`src/mcp-proxy-manager/src/proxy-manager.js`), the reconciler
(`src/mcp-proxy-manager/src/index.js`), the health monitor's remediation
(`src/mcp-proxy-manager/src/health-monitor.js`), the unified-mode supervisor,
and the secret store (`environment-manager.js` with `encryption-manager.js`).
JavaScript `Map`s are modelled as insertion-ordered association lists,
`Set`s as duplicate-free lists, timestamps as natural-number milliseconds.
The file lists all definitions first and all theorems afterwards.
-/

namespace MCPOrch

/-- Lookup in an insertion-ordered association list (JS `Map.get`). -/
def assocGet {α β : Type} [DecidableEq α] : List (α × β) → α → Option β
  | [], _ => none
  | (k, v) :: rest, k' => if k = k' then some v else assocGet rest k'

/-- JS object/Map assignment: update in place if the key exists, append otherwise. -/
def objSet {α β : Type} [DecidableEq α] : List (α × β) → α → β → List (α × β)
  | [], k, v => [(k, v)]
  | (k', v') :: rest, k, v =>
    if k' = k then (k, v) :: rest else (k', v') :: objSet rest k v

/-- Substring test on character lists, used to model JS `String.includes`. -/
def charsInclude (pat l : List Char) : Bool :=
  (List.range (l.length + 1)).any (fun i => decide ((l.drop i).take pat.length = pat))

/-- JS `s.includes(pat)`. -/
def strIncludes (s pat : String) : Bool :=
  charsInclude pat.data s.data

/-- JS truthiness of an optional string: `undefined`/`null` and `""` are falsy. -/
def strTruthy (o : Option String) : Option String :=
  match o with
  | some s => if s = "" then none else some s
  | none => none

/-! ## Port pool — `PortManager` (src/mcp-proxy-manager/src/port-manager.js) -/

/-- State of `PortManager`: range bounds, the `allocatedPorts` set and the
`serverPorts` map (`serverId -> port`). -/
structure PMState where
  startPort : Nat
  endPort : Nat
  allocatedPorts : List Nat
  serverPorts : List (String × Nat)
deriving Repr, DecidableEq

/-- The constructor `new PortManager(startPort, endPort)`. -/
def pmInit (s e : Nat) : PMState := ⟨s, e, [], []⟩

/-- JS `Set.add`: insert if not already present. -/
def setAdd (l : List Nat) (p : Nat) : List Nat :=
  if p ∈ l then l else l ++ [p]

/-- The scan loop of `allocatePort`: the lowest port of `[startPort, endPort]`
absent from `allocatedPorts`. -/
def findFreePort (s : PMState) : Option Nat :=
  (List.range' s.startPort (s.endPort + 1 - s.startPort)).find?
    (fun p => decide (p ∉ s.allocatedPorts))

/-- `PortManager.allocatePort(serverId)` (lines 9-27): return the existing
port when the server already holds one, otherwise reserve the lowest free
port, or `null`. -/
def allocatePort (s : PMState) (id : String) : Option Nat × PMState :=
  match assocGet s.serverPorts id with
  | some p => (some p, s)
  | none =>
    match findFreePort s with
    | some p =>
      (some p, { s with allocatedPorts := setAdd s.allocatedPorts p,
                        serverPorts := s.serverPorts ++ [(id, p)] })
    | none => (none, s)

/-- `PortManager.deallocatePort(serverId)` (lines 29-36): remove the mapping
and free the port; `if (port)` makes it a no-op for a missing mapping or a
falsy (zero) port. -/
def deallocatePort (s : PMState) (id : String) : PMState :=
  match assocGet s.serverPorts id with
  | some p =>
    if p ≠ 0 then
      { s with allocatedPorts := s.allocatedPorts.filter (fun q => decide (q ≠ p)),
               serverPorts := s.serverPorts.filter (fun kv => decide (kv.1 ≠ id)) }
    else s
  | none => s

/-- `PortManager.isPortAvailable(port)` (lines 49-51). -/
def isPortAvailable (s : PMState) (p : Nat) : Bool :=
  decide (s.startPort ≤ p) && decide (p ≤ s.endPort) && !(decide (p ∈ s.allocatedPorts))

/-- A mutating `PortManager` operation. -/
inductive PMOp where
  | alloc (id : String)
  | dealloc (id : String)
deriving Repr, DecidableEq

def applyOp (s : PMState) : PMOp → PMState
  | .alloc id => (allocatePort s id).2
  | .dealloc id => deallocatePort s id

def applyOps (s : PMState) (ops : List PMOp) : PMState :=
  ops.foldl applyOp s

/-- The `PortManager` representation invariant: `allocatedPorts` is exactly
the set of values of `serverPorts`; keys and values are duplicate-free; every
mapped port lies in `[startPort, endPort]`. -/
def pmInv (s : PMState) : Prop :=
  (∀ p ∈ s.allocatedPorts, ∃ kv ∈ s.serverPorts, kv.2 = p) ∧
  (∀ kv ∈ s.serverPorts, kv.2 ∈ s.allocatedPorts) ∧
  (s.serverPorts.map Prod.fst).Nodup ∧
  (s.serverPorts.map Prod.snd).Nodup ∧
  (∀ kv ∈ s.serverPorts, s.startPort ≤ kv.2 ∧ kv.2 ≤ s.endPort) ∧
  s.allocatedPorts.Nodup

instance (s : PMState) : Decidable (pmInv s) := by
  unfold pmInv
  infer_instance

/-- An observable port-pool event: a port handed out by `allocatePort`, or a
port freed by `deallocatePort`, with the wall-clock time of the call. -/
inductive PMEvent where
  | allocated (t : Nat) (id : String) (port : Nat)
  | released (t : Nat) (id : String) (port : Nat)
deriving Repr, DecidableEq

/-- One timestamped `PortManager` call, recording its observable event. -/
def runTimedStep (s : PMState) (ev : List PMEvent) : Nat × PMOp → PMState × List PMEvent
  | (t, .alloc id) =>
    match allocatePort s id with
    | (some p, s') => (s', ev ++ [.allocated t id p])
    | (none, s') => (s', ev)
  | (t, .dealloc id) =>
    match assocGet s.serverPorts id with
    | some p =>
      if p ≠ 0 then (deallocatePort s id, ev ++ [.released t id p])
      else (deallocatePort s id, ev)
    | none => (deallocatePort s id, ev)

/-- Run a timestamped trace of `PortManager` calls from a state, collecting
the event log. -/
def runTimedTrace (trace : List (Nat × PMOp)) (s : PMState) : PMState × List PMEvent :=
  trace.foldl (fun acc top => runTimedStep acc.1 acc.2 top) (s, [])

/-- Claim C2 as stated: in every execution, once `release(serverId)` frees a
port, that port is not allocated to a different serverId until at least
10 seconds (10000 ms) have elapsed since the release. -/
def portCooldownClaim : Prop :=
  ∀ (startP endP : Nat) (trace : List (Nat × PMOp)) (i j t t' : Nat)
    (id id' : String) (p : Nat),
    (runTimedTrace trace (pmInit startP endP)).2.get? i = some (.released t id p) →
    (runTimedTrace trace (pmInit startP endP)).2.get? j = some (.allocated t' id' p) →
    i < j → id ≠ id' → t + 10000 ≤ t'

/-! ## Crash-loop damper — head of `ProxyManager.startProxy` (proxy-manager.js 505-522) -/

/-- Per-server fallback bookkeeping: `{ attempts: Set<proxyType>, lastAttempt,
totalAttempts }` from the `fallbackAttempts` map. -/
structure FallbackInfo where
  attempts : List String
  lastAttempt : Nat
  totalAttempts : Nat
deriving Repr, DecidableEq

/-- The default record materialised when `fallbackAttempts` has no entry. -/
def freshFallbackInfo : FallbackInfo := ⟨[], 0, 0⟩

/-- `this.maxRetryAttempts`. -/
def maxRetryAttempts : Nat := 3

/-- The retry gate at the head of `startProxy` (lines 505-522): refuse when
`totalAttempts >= maxRetryAttempts`; otherwise clear the window state when
more than 30 minutes (1800000 ms) have passed since `lastAttempt`. Returns
(proceed?, fallback info in effect after the gate). -/
def startProxyDamper (stored : Option FallbackInfo) (now : Nat) : Bool × FallbackInfo :=
  let fi := stored.getD freshFallbackInfo
  if fi.totalAttempts ≥ maxRetryAttempts then (false, fi)
  else if now - fi.lastAttempt > 1800000 then
    (true, { fi with attempts := [], totalAttempts := 0 })
  else (true, fi)

/-! ## Try-order of proxy types — `startProxy` (proxy-manager.js 531-557) -/

/-- `initialType = options.forceProxyType || explicit proxyType || defaultProxyType`
(line 539); `explicitVal` is the value of the `proxyType` key when
`hasExplicit` and is ignored otherwise. -/
def computeInitialType (forced explicitVal : Option String) (dflt : String) : String :=
  match strTruthy forced with
  | some f => f
  | none =>
    match strTruthy explicitVal with
    | some e => e
    | none => dflt

/-- Try-order construction (lines 541-552): the initial type unless already
attempted, then — only when the config did not set `proxyType` and fallback
is allowed — the alternate of `mcpo`/`mcp-bridge` unless already attempted. -/
def buildTryOrder (hasExplicit : Bool) (explicitVal forced : Option String)
    (allowFallback : Bool) (dflt : String) (attempts : List String) : List String :=
  let initialType := computeInitialType forced (if hasExplicit then explicitVal else none) dflt
  let first := if attempts.contains initialType then ([] : List String) else [initialType]
  let second :=
    if !hasExplicit && allowFallback then
      let alt := if initialType = "mcpo" then "mcp-bridge" else "mcpo"
      if attempts.contains alt then ([] : List String) else [alt]
    else []
  first ++ second

/-! ## Spawn validation — `validateCommand`, `validateArgs`, `spawnProxy`
(proxy-manager.js 74-137, 728-798) -/

/-- Characters of the component after the last `/`. -/
def basenameAux : List Char → List Char → List Char
  | [], acc => acc
  | c :: rest, acc => if c = '/' then basenameAux rest [] else basenameAux rest (acc ++ [c])

/-- Node `path.basename`: the last `/`-separated component, ignoring
trailing slashes. -/
def pathBasename (s : String) : String :=
  String.mk (basenameAux ((s.data.reverse.dropWhile (fun c => c = '/')).reverse) [])

/-- `this.allowedCommands` (lines 21-31). -/
def allowedCommands : List String :=
  ["uvx", "python", "python3", "node", "npm", "npx", "uv", "pip", "pip3"]

/-- `ProxyManager.validateCommand` (lines 74-95): whitelist on the basename,
then reject `..`, `;`, `&`, `|` anywhere in the command. -/
def validateCommand (command : String) : Option String :=
  if !(allowedCommands.contains (pathBasename command)) then none
  else if strIncludes command ".." || strIncludes command ";" ||
      strIncludes command "&" || strIncludes command "|" then none
  else some command

/-- The character class of the injection pattern in `validateArgs`
(line 114): `; & | backtick $ ( ) { } [ ] \`. -/
def dangerousChars : List Char :=
  [';', '&', '|', Char.ofNat 96, '$', '(', ')', Char.ofNat 123, Char.ofNat 125,
   '[', ']', '\\']

/-- One argument fails `validateArgs`' pattern checks (lines 113-121): an
injection character, a NUL byte, or `../` anywhere. -/
def argDangerous (arg : String) : Bool :=
  arg.data.any (fun c => dangerousChars.contains c) ||
  arg.data.contains (Char.ofNat 0) ||
  strIncludes arg "../"

/-- `ProxyManager.validateArgs` succeeds (lines 102-137): every argument is
clean and at most 1000 characters, and there are at most 50 arguments. -/
def validateArgsOk (args : List String) : Bool :=
  args.all (fun a => !(argDangerous a) && decide (a.length ≤ 1000)) &&
  decide (args.length ≤ 50)

/-- The argv built for a stdio server under the `mcpo` proxy type
(lines 731-742): the ServerSpec's command and args ride inside the argv of
the fixed launcher `uvx`. -/
def mcpoArgs (cmd : String) (args : List String) (port : Nat) : List String :=
  ["mcpo", "--host", "0.0.0.0", "--port", toString port, "--", cmd] ++ args

/-- The spawn decision of `spawnProxy` for a stdio spec with proxy type
`mcpo` (lines 728-798): `validateCommand` is applied to the launcher string
`"uvx"`, `validateArgs` to the argv; `some` means the child is spawned with
that command line, `none` means the launch attempt is refused. -/
def buildStdioMcpoPlan (cmd : String) (args : List String) (port : Nat) :
    Option (String × List String) :=
  let argv := mcpoArgs cmd args port
  if validateArgsOk argv then
    match validateCommand "uvx" with
    | some c => some (c, argv)
    | none => none
  else none

/-! ## Error recording — `recordError`, exit handler (proxy-manager.js 40-47, 824-856) -/

/-- `serverErrors` entry: `{ lastError, errorType, timestamp }`. -/
structure ErrorRecord where
  lastError : String
  errorType : String
  timestamp : Nat
deriving Repr, DecidableEq

/-- `ProxyManager.recordError` (lines 40-47): unconditional `Map.set`, the
previous record is discarded whatever it was. -/
def recordError (_store : Option ErrorRecord) (msg ty : String) (now : Nat) :
    Option ErrorRecord :=
  some ⟨msg, ty, now⟩

/-- The guard of the exit-code recording (lines 846-850): record only when no
error exists, or the existing one has type `health`, or its message contains
`Health check failed`. -/
def exitRecordGuard (existing : Option ErrorRecord) : Bool :=
  match existing with
  | none => true
  | some r => decide (r.errorType = "health") || strIncludes r.lastError "Health check failed"

/-- Message and type derived from an exit code (lines 829-844). -/
def exitErrorInfo (code : Int) : String × String :=
  if code = 137 then ("Process killed by system (likely memory exhaustion)", "resource")
  else if code = 1 then ("Process exited with general error", "runtime")
  else if code = 127 then ("Command not found or executable not available", "dependency")
  else if code = 126 then ("Command found but not executable", "config")
  else ("Process exited with code " ++ toString code, "runtime")

/-- The error-recording effect of the child `exit` listener (lines 824-856):
skip for SIGTERM/SIGINT, exit code 0 or null; otherwise record the exit-code
error only when `exitRecordGuard` passes. -/
def handleExitRecord (store : Option ErrorRecord) (code : Option Int)
    (signal : Option String) (now : Nat) : Option ErrorRecord :=
  if signal ≠ some "SIGTERM" ∧ signal ≠ some "SIGINT" ∧ code ≠ some 0 ∧ code ≠ none then
    match code with
    | some c =>
      if exitRecordGuard store then recordError store (exitErrorInfo c).1 (exitErrorInfo c).2 now
      else store
    | none => store
  else store

/-! ## Health probe and auth handling — `healthCheck`, `startProxy` tail,
`startHealthMonitoring` (proxy-manager.js 998-1059, 609-661, 1092-1122),
`HealthMonitor.attemptRemediation` (health-monitor.js 282-311) -/

/-- Result of `ProxyManager.healthCheck`. -/
structure HealthResult where
  isHealthy : Bool
  isAuthError : Bool
  statusCode : Option Nat
deriving Repr, DecidableEq

/-- The endpoint loop of `healthCheck` (lines 1022-1054): each element is the
HTTP status observed for one endpoint (`none` for a network error/timeout with
no response). A 200 returns healthy immediately and discards any 401 seen
earlier; otherwise the 401 flag and last status accumulate. -/
def healthCheckLoop : List (Option Nat) → Bool → Option Nat → HealthResult
  | [], auth, last => ⟨false, auth, last⟩
  | some s :: rest, auth, _last =>
    if s = 200 then ⟨true, false, some 200⟩
    else healthCheckLoop rest (auth || decide (s = 401)) (some s)
  | none :: rest, auth, last => healthCheckLoop rest auth last

/-- `ProxyManager.healthCheck` over the statuses of `/openapi.json`, `/docs`,
`/` in order. -/
def proxyHealthCheck (statuses : List (Option Nat)) : HealthResult :=
  healthCheckLoop statuses false none

/-- The endpoint outcomes the loop actually processes: everything up to and
including the first 200. -/
def probeProcessed : List (Option Nat) → List (Option Nat)
  | [] => []
  | x :: rest => if x = some 200 then [x] else x :: probeProcessed rest

/-- The probe observed an HTTP 401 on some endpoint it contacted. -/
def probeObserved401 (statuses : List (Option Nat)) : Bool :=
  (probeProcessed statuses).contains (some 401)

/-- How one iteration of `startProxy`'s try loop ends after the health check. -/
inductive StartOutcome where
  | healthy
  | authRequired
  | keepRunning
  | fallback
deriving Repr, DecidableEq

/-- The post-health-check branch of `startProxy` (lines 609-646): outcome,
updated `serverErrors` entry, and whether `authError` is set on the running
proxy. `isLast` is `i === tryOrder.length - 1`. -/
def startAfterProbe (r : HealthResult) (hasExplicit isLast : Bool)
    (errors : Option ErrorRecord) (proxyType : String) (now : Nat) :
    StartOutcome × Option ErrorRecord × Bool :=
  if r.isHealthy then (.healthy, none, false)
  else if r.isAuthError then
    (.authRequired, recordError errors "Authentication required for external service" "auth" now,
      true)
  else
    let errors' := recordError errors ("Health check failed for " ++ proxyType ++ " proxy")
      "health" now
    if hasExplicit || isLast then (.keepRunning, errors', false)
    else (.fallback, errors', false)

/-- One server's step of the periodic loop in `startHealthMonitoring`
(lines 1098-1116): (restart?, updated `serverErrors` entry, updated
`authError` flag). -/
def healthMonitorStep (r : HealthResult) (restartCount : Nat)
    (errors : Option ErrorRecord) (authFlag : Bool) :
    Bool × Option ErrorRecord × Bool :=
  let errors' := if r.isHealthy then none else errors
  if !r.isHealthy && !r.isAuthError && decide (restartCount < 3) then (true, errors', authFlag)
  else if r.isAuthError then (false, errors', true)
  else (false, errors', authFlag)

/-- `HealthMonitor.attemptRemediation` (health-monitor.js 282-311) requests a
restart: skipped entirely when the latest stored health record has
`authError`; otherwise only for the two alert types above their thresholds.
`history` is the per-server list of `authError` flags of the health records. -/
def attemptRemediationRestarts (history : List Bool) (alertType : String)
    (consecutiveFailures failureRate : Nat) : Bool :=
  if history.getLast? = some true then false
  else if alertType = "consecutive_failures" then decide (5 ≤ consecutiveFailures)
  else if alertType = "high_failure_rate" then decide (90 ≤ failureRate)
  else false

/-! ## Reconciler — `MCPProxyManagerApp.reconcileProxies` (index.js 353-433) -/

/-- `reconcileProxies`: `registry` is `this.currentServers`, `rest` the
remaining mutable state (proxy registry and port pool), `stopEffect` the
effect of `proxyManager.stopProxy` on it, and `startStep` the per-desired-
server branch of the loop at lines 389-430 (environment overlay, start or
stop-and-restart on config change — subroutines that spawn processes). The
mass-shutdown guard at lines 359-362 returns with no change at all. -/
def reconcileProxies {σ ρ : Type} (stopEffect : String → ρ → ρ)
    (startStep : String × σ → List (String × σ) × ρ → List (String × σ) × ρ)
    (desired : List (String × σ)) (registry : List (String × σ)) (rest : ρ) :
    List (String × σ) × ρ :=
  let currentIds := (registry.map Prod.fst).eraseDups
  if desired.length = 0 ∧ 2 < currentIds.length then (registry, rest)
  else
    let toRemove := currentIds.filter (fun id => decide (id ∉ desired.map Prod.fst))
    let stopped := toRemove.foldl
      (fun (acc : List (String × σ) × ρ) id =>
        (acc.1.filter (fun kv => decide (kv.1 ≠ id)), stopEffect id acc.2))
      (registry, rest)
    desired.foldl (fun acc kv => startStep kv acc) stopped

/-! ## Unified-mode supervisor — `UnifiedProxyManager` (src/unnamed/part_001) -/

/-- The unified supervisor's fields relevant to crash handling. -/
structure UnifiedState where
  restartCount : Nat
  isHealthy : Bool
deriving Repr, DecidableEq

/-- JS falsiness of the `signal` argument of the exit listener. -/
def signalFalsy (signal : Option String) : Bool :=
  match signal with
  | none => true
  | some s => decide (s = "")

/-- `UnifiedProxyManager.restart` (lines 124-131): bump `restartCount`, stop,
wait 2 s, start. -/
def unifiedRestart (s : UnifiedState) : UnifiedState :=
  { s with restartCount := s.restartCount + 1 }

/-- The `exit` listener of `setupProcessHandlers` (lines 233-241): mark
unhealthy; when `code !== 0 && !signal`, schedule `restart()` via
`setTimeout(..., 5000)`. Returns the state after the listener (and the
scheduled restart, when any) and the scheduled delay. -/
def unifiedOnExit (code : Option Int) (signal : Option String) (s : UnifiedState) :
    UnifiedState × Option Nat :=
  let s1 := { s with isHealthy := false }
  if code ≠ some 0 ∧ signalFalsy signal = true then (unifiedRestart s1, some 5000)
  else (s1, none)

/-- `n` consecutive crashes of the unified child (exit code 1, no signal),
collecting the scheduled restart delays. -/
def runUnifiedCrashes : Nat → UnifiedState → UnifiedState × List Nat
  | 0, s => (s, [])
  | n + 1, s =>
    ((runUnifiedCrashes n (unifiedOnExit (some 1) none s).1).1,
     (unifiedOnExit (some 1) none s).2.toList ++
       (runUnifiedCrashes n (unifiedOnExit (some 1) none s).1).2)

/-! ## Secret store — `EnvironmentManager` (environment-manager.js 84-188)
with `EncryptionManager` (src/unnamed/part_005) -/

/-- An encrypted blob as produced by `EncryptionManager.encrypt`:
`{ data, algorithm, timestamp }`. -/
structure EncBlob where
  data : String
  algorithm : String
  timestamp : String
deriving Repr, DecidableEq

/-- `EncryptionManager.isValidEncryptedData` (part_005 lines 130-141) on a
blob-shaped object: all three fields truthy. -/
def isValidEncryptedData (b : EncBlob) : Bool :=
  decide (b.data ≠ "") && decide (b.algorithm ≠ "") && decide (b.timestamp ≠ "")

/-- The AES-256-GCM primitives of `EncryptionManager`, abstracted: `encrypt`
produces a blob, `decrypt` recovers a string or fails (throws). -/
structure EncScheme where
  encrypt : String → EncBlob
  decrypt : EncBlob → Option String

/-- The persisted bundle `<serverId>.env.json` (fields used by load/save). -/
structure EnvBundle where
  serverId : String
  lastUpdated : String
  varsMap : List (String × EncBlob)
deriving Repr, DecidableEq

/-- `EnvironmentManager` state: the on-disk files and the in-memory cache
(`env:<id> -> (data, timestamp)`), in the persistent-directory mode. -/
structure EnvState where
  files : List (String × EnvBundle)
  cache : List (String × (List (String × String) × Nat))

/-- `EnvironmentManager.saveEnvironmentVariables` (lines 138-188), persistent
path: encrypt each truthy string value (an empty string is falsy and is
skipped), write the bundle atomically, drop the cache entry. -/
def saveEnvironmentVariables (sch : EncScheme) (st : EnvState) (id : String)
    (vars : List (String × String)) (nowStr : String) : EnvState :=
  let encryptedVars := vars.foldl
    (fun acc kv => if kv.2 ≠ "" then objSet acc kv.1 (sch.encrypt kv.2) else acc) []
  { files := objSet st.files id ⟨id, nowStr, encryptedVars⟩,
    cache := st.cache.filter (fun kv => decide (kv.1 ≠ id)) }

/-- The file-reading tail of `loadEnvironmentVariables` (lines 96-125):
decrypt every valid entry, skipping invalid blobs and decryption failures,
then cache the result. -/
def loadFromFile (sch : EncScheme) (st : EnvState) (id : String) (now : Nat) :
    List (String × String) × EnvState :=
  match assocGet st.files id with
  | none => ([], st)
  | some bundle =>
    let decrypted := bundle.varsMap.foldl
      (fun acc kv =>
        if isValidEncryptedData kv.2 then
          match sch.decrypt kv.2 with
          | some v => objSet acc kv.1 v
          | none => acc
        else acc) []
    (decrypted, { st with cache := objSet st.cache id (decrypted, now) })

/-- `EnvironmentManager.loadEnvironmentVariables` (lines 84-130): serve from
the cache within its 5-minute TTL, otherwise read and decrypt the file. -/
def loadEnvironmentVariables (sch : EncScheme) (st : EnvState) (id : String)
    (now : Nat) : List (String × String) × EnvState :=
  match assocGet st.cache id with
  | some entry =>
    if now - entry.2 < 300000 then (entry.1, st)
    else loadFromFile sch { st with cache := st.cache.filter (fun kv => decide (kv.1 ≠ id)) } id now
  | none => loadFromFile sch st id now

/-- A concrete faithful-round-trip instance of the encryption interface, used
to witness claims about the store: prepend one character (standing for the
IV/tag framing), drop it on decryption. -/
def prefEncScheme : EncScheme where
  encrypt := fun v =>
    { data := String.mk ('x' :: v.data), algorithm := "aes-256-gcm", timestamp := "t" }
  decrypt := fun b =>
    match b.data.data with
    | _ :: rest => some (String.mk rest)
    | [] => none

/-- Claim C4 as stated: for every encryption scheme that round-trips strings
and produces valid blobs, and every finite map of string-valued secrets,
`save` then `load` returns exactly the map. -/
def secretRoundTripClaim : Prop :=
  ∀ (sch : EncScheme),
    (∀ v, sch.decrypt (sch.encrypt v) = some v) →
    (∀ v, v ≠ "" → isValidEncryptedData (sch.encrypt v) = true) →
    ∀ (st : EnvState) (id : String) (vars : List (String × String)) (nowStr : String) (now : Nat),
      (vars.map Prod.fst).Nodup →
      (loadEnvironmentVariables sch (saveEnvironmentVariables sch st id vars nowStr) id now).1 = vars

/-! # Theorems -/

/-! ## Association-list and invariant helper lemmas -/

theorem assocGet_eq_none {α β : Type} [DecidableEq α] {m : List (α × β)} {k : α}
    (h : assocGet m k = none) : ∀ kv ∈ m, kv.1 ≠ k := by
  induction m with
  | nil => intro kv hkv; cases hkv
  | cons hd tl ih =>
    intro kv hkv
    rcases hd with ⟨k0, v0⟩
    by_cases hk : k0 = k
    · simp [assocGet, hk] at h
    · simp only [assocGet, if_neg hk] at h
      rcases List.mem_cons.1 hkv with rfl | htl
      · exact hk
      · exact ih h kv htl

theorem assocGet_mem {α β : Type} [DecidableEq α] {m : List (α × β)} {k : α} {v : β}
    (h : assocGet m k = some v) : (k, v) ∈ m := by
  induction m with
  | nil => simp [assocGet] at h
  | cons hd tl ih =>
    rcases hd with ⟨k0, v0⟩
    by_cases hk : k0 = k
    · simp only [assocGet, if_pos hk] at h
      cases h
      subst hk
      exact List.mem_cons_self _ _
    · simp only [assocGet, if_neg hk] at h
      exact List.mem_cons_of_mem _ (ih h)

theorem assocGet_of_keysNodup {α β : Type} [DecidableEq α] {m : List (α × β)}
    (hk : (m.map Prod.fst).Nodup) {k : α} {v : β} (h : (k, v) ∈ m) :
    assocGet m k = some v := by
  induction m with
  | nil => cases h
  | cons hd tl ih =>
    rcases hd with ⟨k0, v0⟩
    simp only [List.map_cons, List.nodup_cons] at hk
    rcases List.mem_cons.1 h with heq | htl
    · cases heq
      simp [assocGet]
    · have hne : k0 ≠ k := by
        intro hkk
        exact hk.1 (hkk ▸ List.mem_map.2 ⟨(k, v), htl, rfl⟩)
      simp only [assocGet, if_neg hne]
      exact ih hk.2 htl

theorem snd_inj_of_nodup {α β : Type} {m : List (α × β)}
    (h : (m.map Prod.snd).Nodup) {a b : α × β}
    (ha : a ∈ m) (hb : b ∈ m) (hab : a.2 = b.2) : a = b := by
  induction m with
  | nil => cases ha
  | cons hd tl ih =>
    simp only [List.map_cons, List.nodup_cons] at h
    rcases List.mem_cons.1 ha with rfl | ha' <;> rcases List.mem_cons.1 hb with rfl | hb'
    · rfl
    · exact absurd (hab ▸ List.mem_map.2 ⟨b, hb', rfl⟩) h.1
    · exact absurd (hab ▸ List.mem_map.2 ⟨a, ha', rfl⟩) h.1
    · exact ih h.2 ha' hb'

theorem pmInv_alloc {s : PMState} (h : pmInv s) (id : String) :
    pmInv (allocatePort s id).2 := by
  obtain ⟨h1, h2, hkeys, hvals, hbnd, hall⟩ := h
  unfold allocatePort
  cases hget : assocGet s.serverPorts id with
  | some p => exact ⟨h1, h2, hkeys, hvals, hbnd, hall⟩
  | none =>
    cases hfind : findFreePort s with
    | none => exact ⟨h1, h2, hkeys, hvals, hbnd, hall⟩
    | some p =>
      have hpmem : p ∈ List.range' s.startPort (s.endPort + 1 - s.startPort) :=
        List.mem_of_find?_eq_some hfind
      have hnotin : p ∉ s.allocatedPorts := by
        have := List.find?_some hfind
        exact of_decide_eq_true this
      have hrange : s.startPort ≤ p ∧ p ≤ s.endPort := by
        rw [List.mem_range'_1] at hpmem
        omega
      have hidfresh : ∀ kv ∈ s.serverPorts, kv.1 ≠ id := assocGet_eq_none hget
      have hpfresh : ∀ kv ∈ s.serverPorts, kv.2 ≠ p := by
        intro kv hkv hp
        exact hnotin (hp ▸ h2 kv hkv)
      have hadd : setAdd s.allocatedPorts p = s.allocatedPorts ++ [p] := by
        simp [setAdd, hnotin]
      simp only [hadd]
      refine ⟨?_, ?_, ?_, ?_, ?_, ?_⟩
      · intro q hq
        rcases List.mem_append.1 hq with hq' | hq'
        · obtain ⟨kv, hkv, hkvq⟩ := h1 q hq'
          exact ⟨kv, List.mem_append_left _ hkv, hkvq⟩
        · refine ⟨(id, p), List.mem_append_right _ (List.mem_singleton.2 rfl), ?_⟩
          simpa using (List.mem_singleton.1 hq').symm
      · intro kv hkv
        rcases List.mem_append.1 hkv with hkv' | hkv'
        · exact List.mem_append_left _ (h2 kv hkv')
        · rcases List.mem_singleton.1 hkv' with rfl
          exact List.mem_append_right _ (List.mem_singleton.2 rfl)
      · rw [List.map_append]
        refine List.Nodup.append hkeys (List.nodup_singleton _) ?_
        intro a ha hb
        rcases List.mem_singleton.1 hb with rfl
        obtain ⟨kv, hkv, hkva⟩ := List.mem_map.1 ha
        exact hidfresh kv hkv hkva
      · rw [List.map_append]
        refine List.Nodup.append hvals (List.nodup_singleton _) ?_
        intro a ha hb
        rcases List.mem_singleton.1 hb with rfl
        obtain ⟨kv, hkv, hkva⟩ := List.mem_map.1 ha
        exact hpfresh kv hkv hkva
      · intro kv hkv
        rcases List.mem_append.1 hkv with hkv' | hkv'
        · exact hbnd kv hkv'
        · rcases List.mem_singleton.1 hkv' with rfl
          exact hrange
      · refine List.Nodup.append hall (List.nodup_singleton _) ?_
        intro a ha hb
        rcases List.mem_singleton.1 hb with rfl
        exact hnotin ha

theorem pmInv_dealloc {s : PMState} (h : pmInv s) (id : String) :
    pmInv (deallocatePort s id) := by
  obtain ⟨h1, h2, hkeys, hvals, hbnd, hall⟩ := h
  unfold deallocatePort
  cases hget : assocGet s.serverPorts id with
  | none => exact ⟨h1, h2, hkeys, hvals, hbnd, hall⟩
  | some p =>
    by_cases hp0 : p ≠ 0
    · simp only [if_pos hp0]
      have hidp : (id, p) ∈ s.serverPorts := assocGet_mem hget
      refine ⟨?_, ?_, ?_, ?_, ?_, ?_⟩
      · intro q hq
        have hq' := List.mem_filter.1 hq
        have hqp : q ≠ p := of_decide_eq_true hq'.2
        obtain ⟨kv, hkv, hkvq⟩ := h1 q hq'.1
        refine ⟨kv, List.mem_filter.2 ⟨hkv, ?_⟩, hkvq⟩
        refine decide_eq_true ?_
        intro hkvid
        have : assocGet s.serverPorts kv.1 = some kv.2 :=
          assocGet_of_keysNodup hkeys (by cases kv; exact hkv)
        rw [hkvid, hget] at this
        cases this
        exact hqp hkvq.symm
      · intro kv hkv
        have hkv' := List.mem_filter.1 hkv
        have hkvid : kv.1 ≠ id := of_decide_eq_true hkv'.2
        refine List.mem_filter.2 ⟨h2 kv hkv'.1, decide_eq_true ?_⟩
        intro hkvp
        have : kv = (id, p) := snd_inj_of_nodup hvals hkv'.1 hidp hkvp
        exact hkvid (by rw [this])
      · exact ((List.filter_sublist _).map Prod.fst).nodup hkeys
      · exact ((List.filter_sublist _).map Prod.snd).nodup hvals
      · intro kv hkv
        exact hbnd kv (List.mem_filter.1 hkv).1
      · exact hall.filter _
    · simp only [if_neg hp0]
      exact ⟨h1, h2, hkeys, hvals, hbnd, hall⟩

theorem pmInv_applyOp {s : PMState} (h : pmInv s) (op : PMOp) :
    pmInv (applyOp s op) := by
  cases op with
  | alloc id => exact pmInv_alloc h id
  | dealloc id => exact pmInv_dealloc h id

theorem pmInv_applyOps {s : PMState} (h : pmInv s) (ops : List PMOp) :
    pmInv (applyOps s ops) := by
  induction ops generalizing s with
  | nil => exact h
  | cons op rest ih => exact ih (pmInv_applyOp h op)

theorem pmInv_init (a b : Nat) : pmInv (pmInit a b) := by
  refine ⟨?_, ?_, ?_, ?_, ?_, ?_⟩ <;> simp [pmInit]

/-- Claim C10: every sequence of `PortManager` operations (allocatePort,
deallocatePort, in any order, with any serverIds) preserves the invariant
that `allocatedPorts` equals exactly the set of ports appearing as values of
the `serverPorts` map, that no two serverIds map to the same port, and that
every mapped port lies within `[startPort, endPort]`. -/
theorem c10_portPool_invariant (startP endP : Nat) (ops : List PMOp) :
    pmInv (applyOps (pmInit startP endP) ops) :=
  pmInv_applyOps (pmInv_init startP endP) ops

/-! ## Claim C2 -/

/-- Claim C2 is false on the code: `deallocatePort` frees the port
immediately and `allocatePort` has no notion of time, so a port released for
server "a" at t = 5 ms is handed to server "b" at t = 6 ms. There is no
cooldown or draining state anywhere in `PortManager`. -/
theorem c2_counterexample : ¬ portCooldownClaim := by
  intro h
  have := h 4000 4100 [(0, .alloc "a"), (5, .dealloc "a"), (6, .alloc "b")]
    1 2 5 6 "a" "b" 4000 (by decide) (by decide) (by decide) (by decide)
  omega

/-- Claim C2 amended: after `deallocatePort(serverId)` removes a (nonzero)
port mapping, the port is immediately available again — `isPortAvailable`
returns true with no elapsed time, so it can be allocated to a different
serverId at once. The 10-second `portReuseDelay` exists only as a sleep in
`ProxyManager.startProxy`'s fallback path, not in the port pool. -/
theorem c2_release_immediate (s : PMState) (id : String) (p : Nat)
    (hinv : pmInv s) (hget : assocGet s.serverPorts id = some p) (hp : p ≠ 0) :
    isPortAvailable (deallocatePort s id) p = true := by
  obtain ⟨_, _, _, _, hbnd, _⟩ := hinv
  have hmem : (id, p) ∈ s.serverPorts := assocGet_mem hget
  have hrange := hbnd (id, p) hmem
  unfold deallocatePort
  rw [hget]
  simp only [if_pos hp, isPortAvailable, Bool.and_eq_true, decide_eq_true_eq,
    Bool.not_eq_true', decide_eq_false_iff_not]
  refine ⟨⟨hrange.1, hrange.2⟩, ?_⟩
  intro hin
  have := List.mem_filter.1 hin
  exact (of_decide_eq_true this.2) rfl

/-- Witness for the amended C2 theorem: in the pool `[4000, 4100]` holding
only server "a" on port 4000, releasing "a" makes 4000 available at once. -/
theorem c2_release_immediate_witness :
    pmInv (applyOps (pmInit 4000 4100) [.alloc "a"]) ∧
    assocGet (applyOps (pmInit 4000 4100) [.alloc "a"]).serverPorts "a" = some 4000 ∧
    isPortAvailable (deallocatePort (applyOps (pmInit 4000 4100) [.alloc "a"]) "a") 4000 = true :=
  ⟨by decide, by decide,
    c2_release_immediate _ "a" 4000 (by decide) (by decide) (by decide)⟩

/-! ## Claim C1 -/

/-- Claim C1 is false on the code: with `totalAttempts = 3` and a full
hour elapsed since `lastAttemptAt` (well over the 30-minute window), the
start is still refused and the fallback state is not reset — the
`totalAttempts >= maxRetryAttempts` check at line 512 returns before the
reset at lines 517-522 can ever run. -/
theorem c1_counterexample :
    3 ≤ (⟨["mcpo", "mcp-bridge"], 0, 3⟩ : FallbackInfo).totalAttempts ∧
    1800000 ≤ 3600000 - (⟨["mcpo", "mcp-bridge"], 0, 3⟩ : FallbackInfo).lastAttempt ∧
    (startProxyDamper (some ⟨["mcpo", "mcp-bridge"], 0, 3⟩) 3600000).1 = false ∧
    (startProxyDamper (some ⟨["mcpo", "mcp-bridge"], 0, 3⟩) 3600000).2 =
      ⟨["mcpo", "mcp-bridge"], 0, 3⟩ := by
  decide

/-- Claim C1 amended: a start for an id whose fallback state has
`totalAttempts >= 3` is refused regardless of how much time has elapsed,
with the state left untouched (the 30-minute reset is unreachable there);
the reset of `attemptedTypes`/`totalAttempts` happens only on a start with
`totalAttempts < 3` after strictly more than 30 minutes. A 4th attempt is
therefore always refused, inside or outside the 30-minute window. -/
theorem c1_crashLoop_damper (stored : Option FallbackInfo) (now : Nat) :
    ((startProxyDamper stored now).1 = false ↔
      3 ≤ (stored.getD freshFallbackInfo).totalAttempts) ∧
    (3 ≤ (stored.getD freshFallbackInfo).totalAttempts →
      (startProxyDamper stored now).2 = stored.getD freshFallbackInfo) ∧
    ((stored.getD freshFallbackInfo).totalAttempts < 3 →
      1800000 < now - (stored.getD freshFallbackInfo).lastAttempt →
      (startProxyDamper stored now).2 =
        { stored.getD freshFallbackInfo with attempts := [], totalAttempts := 0 }) := by
  unfold startProxyDamper maxRetryAttempts
  set fi := stored.getD freshFallbackInfo with hfi
  by_cases h3 : 3 ≤ fi.totalAttempts
  · simp [ge_iff_le, h3]
  · have h3' : fi.totalAttempts < 3 := by omega
    by_cases ht : 1800000 < now - fi.lastAttempt
    · simp [ge_iff_le, h3, ht]
    · simp [ge_iff_le, h3, ht]

/-- Witness for the amended C1 theorem: a server at `totalAttempts = 3` is
refused at `now = 7200000` (two hours later). -/
theorem c1_crashLoop_damper_witness :
    (startProxyDamper (some ⟨["mcpo", "mcp-bridge"], 0, 3⟩) 7200000).1 = false :=
  ((c1_crashLoop_damper (some ⟨["mcpo", "mcp-bridge"], 0, 3⟩) 7200000).1).mpr (by decide)

/-! ## Claim C5 -/

/-- Claim C5 is false on the code: a spec with explicit `proxyType = "mcpo"`
whose type is already in the window's `attemptedTypes` (for example a
restart after a failed spawn, before the 30-minute reset) gets the empty
try-order — lines 543-545 skip already-attempted types — and the start is
refused at line 554, not the singleton `["mcpo"]`. -/
theorem c5_counterexample :
    buildTryOrder true (some "mcpo") none true "mcpo" ["mcpo"] = [] ∧
    ([] : List String) ≠ ["mcpo"] := by
  decide

/-- Claim C5 amended: for a start with an explicit nonempty `proxyType` hint
(and no `forceProxyType` option), the try-order is `[hint]` when the hint is
not among the already-attempted types and `[]` otherwise; in either case it
never contains an alternate type and has at most one element, and the
post-health-check branch never chooses fallback when the hint is explicit. -/
theorem c5_explicit_hint_no_alternate (h dflt : String) (allowFallback : Bool)
    (attempts : List String) (hne : h ≠ "") :
    buildTryOrder true (some h) none allowFallback dflt attempts =
      (if attempts.contains h then [] else [h]) ∧
    (∀ x ∈ buildTryOrder true (some h) none allowFallback dflt attempts, x = h) ∧
    (buildTryOrder true (some h) none allowFallback dflt attempts).length ≤ 1 ∧
    (∀ (r : HealthResult) (isLast : Bool) (errors : Option ErrorRecord) (pt : String) (now : Nat),
      (startAfterProbe r true isLast errors pt now).1 ≠ StartOutcome.fallback) := by
  have hinit : computeInitialType none (some h) dflt = h := by
    simp [computeInitialType, strTruthy, hne]
  have horder : buildTryOrder true (some h) none allowFallback dflt attempts =
      (if attempts.contains h then [] else [h]) := by
    unfold buildTryOrder
    simp [hinit]
  refine ⟨horder, ?_, ?_, ?_⟩
  · rw [horder]
    split <;> simp
  · rw [horder]
    split <;> simp
  · intro r isLast errors pt now
    unfold startAfterProbe
    by_cases hh : r.isHealthy = true
    · simp [hh]
    · by_cases ha : r.isAuthError = true <;> simp [hh, ha]

/-- Witness for the amended C5 theorem: explicit hint "mcp-bridge", nothing
attempted yet — the try-order is exactly the singleton of the hint. -/
theorem c5_explicit_hint_witness :
    buildTryOrder true (some "mcp-bridge") none true "mcpo" [] = ["mcp-bridge"] := by
  have := (c5_explicit_hint_no_alternate "mcp-bridge" "mcpo" true [] (by decide)).1
  simpa using this

/-! ## Claim C3 -/

/-- Claim C3 is false on the code: a stdio spec whose command is `bash`
(basename not in the whitelist) is not refused — `spawnProxy` validates only
the fixed launcher string `"uvx"`, while the spec's command is passed as an
ordinary argv element subject only to `validateArgs`' character hygiene, so
the child is spawned. -/
theorem c3_counterexample :
    allowedCommands.contains (pathBasename "bash") = false ∧
    buildStdioMcpoPlan "bash" [] 4000 =
      some ("uvx", ["mcpo", "--host", "0.0.0.0", "--port", "4000", "--", "bash"]) := by
  decide

/-- Claim C3 amended: the command whitelist is applied only to the launcher
`"uvx"` (which always passes), never to the ServerSpec's command; a stdio
launch under `mcpo` is refused exactly when some argv element — including
the spec's command and args — fails the argument-hygiene checks. -/
theorem c3_whitelist_only_on_launcher (cmd : String) (args : List String) (port : Nat) :
    validateCommand "uvx" = some "uvx" ∧
    (buildStdioMcpoPlan cmd args port).isSome = validateArgsOk (mcpoArgs cmd args port) := by
  have huvx : validateCommand "uvx" = some "uvx" := by decide
  refine ⟨huvx, ?_⟩
  unfold buildStdioMcpoPlan
  by_cases hv : validateArgsOk (mcpoArgs cmd args port) = true
  · simp [hv, huvx]
  · simp only [Bool.not_eq_true] at hv
    simp [hv]

/-! ## Claim C8 -/

/-- Claim C8 is false on the code: `recordError` is an unconditional
`Map.set`, so a previously recorded `auth` error is overwritten by a newly
classified `runtime` error — the claimed "auth is overwritable only by
another auth" rule is not implemented on the classifier path. -/
theorem c8_counterexample :
    recordError (some ⟨"Authentication required for external service", "auth", 0⟩)
        "Process exited with general error" "runtime" 5 =
      some ⟨"Process exited with general error", "runtime", 5⟩ ∧
    (⟨"Process exited with general error", "runtime", 5⟩ : ErrorRecord) ≠
      ⟨"Authentication required for external service", "auth", 0⟩ := by
  exact ⟨rfl, by decide⟩

/-- Claim C8 amended: every classifier-recorded error overwrites the previous
record unconditionally, whatever the two types are; the only guarded path is
the exit-code recorder, which writes only when no record exists, the previous
record's type is `health`, or its message contains "Health check failed" — in
particular an `auth` record (without that message) survives exit-code errors
but not classifier errors. -/
theorem c8_recording_policy (store : Option ErrorRecord) (msg ty : String) (now : Nat)
    (r : ErrorRecord) (code : Option Int) (signal : Option String)
    (hauth : r.errorType = "auth")
    (hmsg : strIncludes r.lastError "Health check failed" = false) :
    recordError store msg ty now = some ⟨msg, ty, now⟩ ∧
    handleExitRecord (some r) code signal now = some r := by
  refine ⟨rfl, ?_⟩
  have hguard : exitRecordGuard (some r) = false := by
    simp [exitRecordGuard, hauth, hmsg]
  unfold handleExitRecord
  split
  · cases code with
    | none => rfl
    | some c => simp [hguard]
  · rfl

/-- Witness for the amended C8 theorem: an auth record overwritten by a
classifier `runtime` error, but untouched by an exit-code-1 event. -/
theorem c8_recording_policy_witness :
    recordError (some ⟨"key missing", "auth", 0⟩) "boom" "runtime" 1 =
      some ⟨"boom", "runtime", 1⟩ ∧
    handleExitRecord (some ⟨"key missing", "auth", 0⟩) (some 1) none 1 =
      some ⟨"key missing", "auth", 0⟩ :=
  c8_recording_policy (some ⟨"key missing", "auth", 0⟩) "boom" "runtime" 1
    ⟨"key missing", "auth", 0⟩ (some 1) none rfl (by decide)

/-! ## Claim C9 -/

/-- Claim C9 is false on the code: after 4 consecutive crashes of the
unified bridge child, 4 restarts have been performed — nothing in
`UnifiedProxyManager` ever reads `restartCount` to give up — and every
scheduled delay is the constant 5000 ms, with no exponential backoff. -/
theorem c9_counterexample :
    (runUnifiedCrashes 4 ⟨0, true⟩).1.restartCount = 4 ∧
    (runUnifiedCrashes 4 ⟨0, true⟩).2 = [5000, 5000, 5000, 5000] := by
  decide

/-- Claim C9 amended: on every unexpected exit (nonzero code, no signal) the
unified supervisor schedules a restart after a fixed 5-second delay,
unconditionally: after `n` consecutive crashes, `restartCount` has grown by
exactly `n` and every one of the `n` scheduled delays is 5000 ms — there is
no backoff and no cap on consecutive restarts. -/
theorem c9_unified_restart_unbounded (n : Nat) (s : UnifiedState) :
    (runUnifiedCrashes n s).1.restartCount = s.restartCount + n ∧
    (runUnifiedCrashes n s).2 = List.replicate n 5000 := by
  induction n generalizing s with
  | zero => simp [runUnifiedCrashes]
  | succ k ih =>
    have hcond : some (1 : Int) ≠ some 0 ∧ signalFalsy none = true := by decide
    have hstep : unifiedOnExit (some 1) none s =
        (unifiedRestart { s with isHealthy := false }, some 5000) := by
      unfold unifiedOnExit
      rw [if_pos hcond]
    obtain ⟨ih1, ih2⟩ := ih (unifiedRestart { s with isHealthy := false })
    refine ⟨?_, ?_⟩
    · unfold runUnifiedCrashes
      rw [hstep]
      show (runUnifiedCrashes k (unifiedRestart { s with isHealthy := false })).1.restartCount =
        s.restartCount + (k + 1)
      rw [ih1]
      simp only [unifiedRestart]
      omega
    · unfold runUnifiedCrashes
      rw [hstep]
      show (some 5000).toList ++
          (runUnifiedCrashes k (unifiedRestart { s with isHealthy := false })).2 =
        List.replicate (k + 1) 5000
      rw [ih2, List.replicate_succ]
      rfl

/-! ## Claim C6 -/

/-- Claim C6 is false on the code as stated: a probe that observes HTTP 401
on `/openapi.json` and then 200 on `/docs` returns healthy with
`isAuthError = false`, so nothing marks `authError` and no `auth` error is
recorded; moreover, even for a genuine auth result the periodic health loop
sets only the `authError` flag and records no `auth`-typed `ErrorRecord`
(its `serverErrors` entry is left as it was). -/
theorem c6_counterexample :
    probeObserved401 [some 401, some 200, none] = true ∧
    proxyHealthCheck [some 401, some 200, none] = ⟨true, false, some 200⟩ ∧
    startAfterProbe (proxyHealthCheck [some 401, some 200, none]) false true none "mcpo" 0 =
      (StartOutcome.healthy, none, false) ∧
    (healthMonitorStep ⟨false, true, some 401⟩ 0 (some ⟨"boom", "runtime", 0⟩) false).2.1 =
      some ⟨"boom", "runtime", 0⟩ := by
  decide

theorem healthCheckLoop_auth_not_healthy (l : List (Option Nat)) (a : Bool) (last : Option Nat)
    (h : (healthCheckLoop l a last).isAuthError = true) :
    (healthCheckLoop l a last).isHealthy = false := by
  induction l generalizing a last with
  | nil => rfl
  | cons x rest ih =>
    cases x with
    | none => exact ih a last h
    | some s =>
      by_cases hs : s = 200
      · subst hs
        simp [healthCheckLoop] at h
      · simp only [healthCheckLoop, if_neg hs] at h ⊢
        exact ih _ _ h

/-- Claim C6 amended: whenever the health probe's overall result is an auth
error (a 401 observed and no endpoint returned 200), the start procedure
records an `auth`-typed error, sets `authError`, and returns without trying
another proxy type; the periodic health loop does not restart the server,
sets `authError`, and leaves the recorded error untouched; and alert
remediation never restarts a server whose latest health record has
`authError`. -/
theorem c6_auth_never_restarted (statuses : List (Option Nat)) (hasExplicit isLast : Bool)
    (errors : Option ErrorRecord) (pt : String) (now rc : Nat) (authFlag : Bool)
    (history : List Bool) (alertType : String) (cf fr : Nat)
    (hauth : (proxyHealthCheck statuses).isAuthError = true) :
    startAfterProbe (proxyHealthCheck statuses) hasExplicit isLast errors pt now =
      (StartOutcome.authRequired,
        some ⟨"Authentication required for external service", "auth", now⟩, true) ∧
    (healthMonitorStep (proxyHealthCheck statuses) rc errors authFlag).1 = false ∧
    (healthMonitorStep (proxyHealthCheck statuses) rc errors authFlag).2.2 = true ∧
    (healthMonitorStep (proxyHealthCheck statuses) rc errors authFlag).2.1 = errors ∧
    (history.getLast? = some true → attemptRemediationRestarts history alertType cf fr = false) := by
  have hh : (proxyHealthCheck statuses).isHealthy = false :=
    healthCheckLoop_auth_not_healthy statuses false none hauth
  refine ⟨?_, ?_, ?_, ?_, ?_⟩
  · unfold startAfterProbe
    simp [hh, hauth, recordError]
  · unfold healthMonitorStep
    simp [hh, hauth]
  · unfold healthMonitorStep
    simp [hh, hauth]
  · unfold healthMonitorStep
    simp [hh, hauth]
  · intro hlast
    unfold attemptRemediationRestarts
    simp [hlast]

/-- Witness for the amended C6 theorem: a probe that only ever saw 401. -/
theorem c6_auth_never_restarted_witness :
    (proxyHealthCheck [some 401, some 401, some 401]).isAuthError = true ∧
    startAfterProbe (proxyHealthCheck [some 401, some 401, some 401]) false true none "mcpo" 7 =
      (StartOutcome.authRequired,
        some ⟨"Authentication required for external service", "auth", 7⟩, true) ∧
    (healthMonitorStep (proxyHealthCheck [some 401, some 401, some 401]) 0 none false).1 = false :=
  ⟨by decide,
    (c6_auth_never_restarted [some 401, some 401, some 401] false true none "mcpo" 7 0 false
      [] "x" 0 0 (by decide)).1,
    (c6_auth_never_restarted [some 401, some 401, some 401] false true none "mcpo" 7 0 false
      [] "x" 0 0 (by decide)).2.1⟩

/-! ## Claim C7 -/

/-- Claim C7: a reconcile pass whose desired set is empty while the live
registry holds more than two servers returns with the registry and the rest
of the state (proxy registry, port pool) exactly as they were — no stop and
no start is performed, whatever those subroutines would do. -/
theorem c7_mass_shutdown_guard {σ ρ : Type} (stopEffect : String → ρ → ρ)
    (startStep : String × σ → List (String × σ) × ρ → List (String × σ) × ρ)
    (registry : List (String × σ)) (rest : ρ)
    (hlive : 2 < ((registry.map Prod.fst).eraseDups).length) :
    reconcileProxies stopEffect startStep [] registry rest = (registry, rest) := by
  unfold reconcileProxies
  simp [hlive]

/-- Witness for the C7 theorem: three live servers, empty desired set, a
stop effect and a start step that would visibly mutate the state — nothing
happens. -/
theorem c7_mass_shutdown_guard_witness :
    2 < ((([("a", 0), ("b", 1), ("c", 2)] : List (String × Nat)).map Prod.fst).eraseDups).length ∧
    reconcileProxies (fun _ r => r + 1) (fun _ _ => ([], 99)) ([] : List (String × Nat))
      [("a", 0), ("b", 1), ("c", 2)] (0 : Nat) = ([("a", 0), ("b", 1), ("c", 2)], 0) :=
  ⟨by decide,
    c7_mass_shutdown_guard (fun _ r => r + 1) (fun _ _ => ([], 99))
      [("a", 0), ("b", 1), ("c", 2)] 0 (by decide)⟩

/-! ## Claim C4 -/

theorem assocGet_filter_ne {α β : Type} [DecidableEq α] (m : List (α × β)) (k : α) :
    assocGet (m.filter (fun kv => decide (kv.1 ≠ k))) k = none := by
  induction m with
  | nil => rfl
  | cons hd tl ih =>
    rcases hd with ⟨k0, v0⟩
    have ih' : assocGet (List.filter (fun kv => !decide (kv.1 = k)) tl) k = none := by
      simpa using ih
    by_cases hk : k0 = k <;> simp [List.filter_cons, hk, assocGet, ih']

theorem assocGet_objSet_self {α β : Type} [DecidableEq α] (m : List (α × β)) (k : α) (v : β) :
    assocGet (objSet m k v) k = some v := by
  induction m with
  | nil => simp [objSet, assocGet]
  | cons hd tl ih =>
    rcases hd with ⟨k0, v0⟩
    by_cases hk : k0 = k
    · simp [objSet, hk, assocGet]
    · simp [objSet, hk, assocGet, ih]

theorem objSet_fresh {α β : Type} [DecidableEq α] (m : List (α × β)) (k : α) (v : β)
    (h : ∀ kv ∈ m, kv.1 ≠ k) : objSet m k v = m ++ [(k, v)] := by
  induction m with
  | nil => rfl
  | cons hd tl ih =>
    rcases hd with ⟨k0, v0⟩
    have hk : k0 ≠ k := h (k0, v0) (List.mem_cons_self _ _)
    simp only [objSet, if_neg hk, List.cons_append, List.cons.injEq, true_and]
    exact ih (fun kv hkv => h kv (List.mem_cons_of_mem _ hkv))

theorem foldl_encrypt_build (sch : EncScheme) (vars : List (String × String))
    (acc : List (String × EncBlob))
    (hnodup : (vars.map Prod.fst).Nodup)
    (hdisj : ∀ kv ∈ vars, ∀ kv' ∈ acc, kv'.1 ≠ kv.1)
    (hvals : ∀ kv ∈ vars, kv.2 ≠ "") :
    vars.foldl (fun acc kv => if kv.2 ≠ "" then objSet acc kv.1 (sch.encrypt kv.2) else acc) acc
      = acc ++ vars.map (fun kv => (kv.1, sch.encrypt kv.2)) := by
  induction vars generalizing acc with
  | nil => simp
  | cons hd tl ih =>
    rcases hd with ⟨k, v⟩
    rw [List.map_cons, List.nodup_cons] at hnodup
    have hv : ((k, v).2 : String) ≠ "" := hvals (k, v) (List.mem_cons_self _ _)
    simp only [List.foldl_cons, if_pos hv]
    have hstep : objSet acc (k, v).1 (sch.encrypt (k, v).2) = acc ++ [(k, sch.encrypt v)] :=
      objSet_fresh _ _ _ (fun kv' hkv' => hdisj (k, v) (List.mem_cons_self _ _) kv' hkv')
    rw [hstep]
    have hdisj' : ∀ kv ∈ tl, ∀ kv' ∈ acc ++ [(k, sch.encrypt v)], kv'.1 ≠ kv.1 := by
      intro kv hkv kv' hkv'
      rcases List.mem_append.1 hkv' with h' | h'
      · exact hdisj kv (List.mem_cons_of_mem _ hkv) kv' h'
      · rcases List.mem_singleton.1 h' with rfl
        intro hkk
        exact hnodup.1 (List.mem_map.2 ⟨kv, hkv, hkk.symm⟩)
    rw [ih _ hnodup.2 hdisj' (fun kv hkv => hvals kv (List.mem_cons_of_mem _ hkv))]
    simp [List.append_assoc]

theorem foldl_decrypt_build (sch : EncScheme) (vars : List (String × String))
    (acc : List (String × String))
    (hnodup : (vars.map Prod.fst).Nodup)
    (hdisj : ∀ kv ∈ vars, ∀ kv' ∈ acc, kv'.1 ≠ kv.1)
    (hgood : ∀ kv ∈ vars, sch.decrypt (sch.encrypt kv.2) = some kv.2 ∧
      isValidEncryptedData (sch.encrypt kv.2) = true) :
    (vars.map (fun kv => (kv.1, sch.encrypt kv.2))).foldl
      (fun acc kv =>
        if isValidEncryptedData kv.2 then
          match sch.decrypt kv.2 with
          | some v => objSet acc kv.1 v
          | none => acc
        else acc) acc
      = acc ++ vars := by
  induction vars generalizing acc with
  | nil => simp
  | cons hd tl ih =>
    rcases hd with ⟨k, v⟩
    rw [List.map_cons, List.nodup_cons] at hnodup
    obtain ⟨hdec, hval⟩ := hgood (k, v) (List.mem_cons_self _ _)
    simp only [List.map_cons, List.foldl_cons, hval, if_true, hdec]
    have hstep : objSet acc k ((k, v).2) = acc ++ [(k, v)] :=
      objSet_fresh _ _ _ (fun kv' hkv' => hdisj (k, v) (List.mem_cons_self _ _) kv' hkv')
    rw [hstep]
    have hdisj' : ∀ kv ∈ tl, ∀ kv' ∈ acc ++ [(k, v)], kv'.1 ≠ kv.1 := by
      intro kv hkv kv' hkv'
      rcases List.mem_append.1 hkv' with h' | h'
      · exact hdisj kv (List.mem_cons_of_mem _ hkv) kv' h'
      · rcases List.mem_singleton.1 h' with rfl
        intro hkk
        exact hnodup.1 (List.mem_map.2 ⟨kv, hkv, hkk.symm⟩)
    rw [ih _ hnodup.2 hdisj' (fun kv hkv => hgood kv (List.mem_cons_of_mem _ hkv))]
    simp [List.append_assoc]

theorem prefEncScheme_roundtrip (v : String) :
    prefEncScheme.decrypt (prefEncScheme.encrypt v) = some v := by
  cases v with
  | mk l => rfl

theorem prefEncScheme_valid (v : String) (hv : v ≠ "") :
    isValidEncryptedData (prefEncScheme.encrypt v) = true := by
  cases v with
  | mk l =>
    simp only [isValidEncryptedData, prefEncScheme, Bool.and_eq_true, decide_eq_true_eq]
    refine ⟨⟨?_, by decide⟩, by decide⟩
    intro h
    have := congrArg String.data h
    simp at this

/-- Claim C4 is false on the code: `saveEnvironmentVariables` only encrypts
values passing the `value && typeof value === 'string'` truthiness test, so
an empty-string secret is silently dropped; `save(id, {API_KEY: ""})`
followed by `load(id)` returns the empty map, not the saved one. (Witnessed
with an encryption scheme that round-trips every string and produces valid
blobs, as AES-256-GCM does.) -/
theorem c4_counterexample : ¬ secretRoundTripClaim := by
  intro h
  have := h prefEncScheme prefEncScheme_roundtrip prefEncScheme_valid ⟨[], []⟩ "srv"
    [("API_KEY", "")] "2026-01-01" 0 (by decide)
  exact absurd this (by decide)

/-- Claim C4 amended: the save/load round-trip holds for every finite map
whose values are all non-empty strings (given that decryption inverts
encryption and encrypted blobs pass `isValidEncryptedData`, as for
AES-256-GCM): `save(id, V); load(id)` returns exactly `V`, through the
encrypted on-disk bundle and past the invalidated cache. Empty-string values
are dropped by `save` and absent from the subsequent `load`. -/
theorem c4_roundtrip_nonempty (sch : EncScheme) (st : EnvState) (id : String)
    (vars : List (String × String)) (nowStr : String) (now : Nat)
    (hgood : ∀ kv ∈ vars, kv.2 ≠ "" ∧ sch.decrypt (sch.encrypt kv.2) = some kv.2 ∧
      isValidEncryptedData (sch.encrypt kv.2) = true)
    (hkeys : (vars.map Prod.fst).Nodup) :
    (loadEnvironmentVariables sch (saveEnvironmentVariables sch st id vars nowStr) id now).1
      = vars := by
  have henc : vars.foldl
      (fun acc kv => if kv.2 ≠ "" then objSet acc kv.1 (sch.encrypt kv.2) else acc) []
      = vars.map (fun kv => (kv.1, sch.encrypt kv.2)) := by
    have := foldl_encrypt_build sch vars [] hkeys
      (by intro kv _ kv' h'; cases h') (fun kv hkv => (hgood kv hkv).1)
    simpa using this
  have hdec : (vars.map (fun kv => (kv.1, sch.encrypt kv.2))).foldl
      (fun acc kv =>
        if isValidEncryptedData kv.2 then
          match sch.decrypt kv.2 with
          | some v => objSet acc kv.1 v
          | none => acc
        else acc) []
      = vars := by
    have := foldl_decrypt_build sch vars [] hkeys
      (by intro kv _ kv' h'; cases h') (fun kv hkv => (hgood kv hkv).2)
    simpa using this
  simp only [saveEnvironmentVariables, loadEnvironmentVariables, loadFromFile,
    assocGet_filter_ne, assocGet_objSet_self, henc, hdec]

/-- Witness for the amended C4 theorem: two non-empty secrets round-trip
exactly under the concrete faithful scheme. -/
theorem c4_roundtrip_nonempty_witness :
    (∀ kv ∈ ([("API_KEY", "k1"), ("BASE_URL", "u")] : List (String × String)),
      kv.2 ≠ "" ∧ prefEncScheme.decrypt (prefEncScheme.encrypt kv.2) = some kv.2 ∧
      isValidEncryptedData (prefEncScheme.encrypt kv.2) = true) ∧
    (loadEnvironmentVariables prefEncScheme
        (saveEnvironmentVariables prefEncScheme ⟨[], []⟩ "srv"
          [("API_KEY", "k1"), ("BASE_URL", "u")] "2026-01-01") "srv" 0).1
      = [("API_KEY", "k1"), ("BASE_URL", "u")] :=
  ⟨by decide,
    c4_roundtrip_nonempty prefEncScheme ⟨[], []⟩ "srv"
      [("API_KEY", "k1"), ("BASE_URL", "u")] "2026-01-01" 0 (by decide) (by decide)⟩

end MCPOrch
